import Mathlib

/-!
Verification of the facet filter state-management hook (`useFilterFacets`).

The TypeScript hook manages a mapping from facet ids to facet records and
exposes pure state transitions (expand/close facets, toggle/select items,
search). We embed the state as an association list of key/facet pairs,
mirroring a JavaScript object: assignment to an existing key keeps its
position, assignment to a fresh key appends. Operations that would throw a
TypeError in JavaScript (reading a property of `undefined`) return `Option`,
with `none` standing for the exception. Spreading a missing entry
(`{ ...undefined, open: true }`) yields an object whose remaining fields are
`undefined`; `stubFacet` stands for that object, reading an `undefined`
boolean as `false`, an `undefined` string as `""` and an `undefined` list as
absent or empty, which is how the rest of the code would observe them.
-/

namespace FilterFacets

structure FacetItem where
  value : String
  label : String
  selected : Bool
  deriving DecidableEq, Repr

structure Facet where
  id : String
  title : String
  accessor : String
  items : List FacetItem
  originalItems : Option (List FacetItem)
  filteredItems : Option (List FacetItem)
  «open» : Bool
  allSelected : Bool
  search : Option String
  deriving DecidableEq, Repr

/-- The store state: a JavaScript object keyed by facet id, embedded as an
association list in insertion order. -/
abbrev FacetState := List (String × Facet)

/-- The keys of the state object, in insertion order. -/
def keys (s : FacetState) : List String := s.map Prod.fst

/-- JavaScript objects never hold two entries under one key. -/
def keysNodup (s : FacetState) : Prop := (keys s).Nodup

/-- Property read `s[k]`: the first entry with key `k`, if any. -/
def lookup (s : FacetState) (k : String) : Option Facet :=
  (s.find? (fun p => p.1 == k)).map Prod.snd

/-- Whether the object has an entry under `k`. -/
def hasKey (s : FacetState) (k : String) : Bool := s.any (fun p => p.1 == k)

/-- Property write `s[k] = f`: replaces in place when the key exists,
appends otherwise (JavaScript key-order semantics). -/
def setKey (s : FacetState) (k : String) (f : Facet) : FacetState :=
  if hasKey s k then s.map (fun p => if p.1 == k then (k, f) else p)
  else s ++ [(k, f)]

/-- The object produced by spreading a missing entry: every field is
`undefined`, observed as false / empty by the code. -/
def stubFacet : Facet :=
  { id := "", title := "", accessor := "", items := [], originalItems := none,
    filteredItems := none, «open» := false, allSelected := false, search := none }

/-- `closeAllFacets`: rebuilds the state with `open: false` on every facet. -/
def closeAllFacets (s : FacetState) : FacetState :=
  s.map (fun p => (p.1, { p.2 with «open» := false }))

/-- `expandAllFacets`: rebuilds the state with `open: true` on every facet. -/
def expandAllFacets (s : FacetState) : FacetState :=
  s.map (fun p => (p.1, { p.2 with «open» := true }))

/-- `toggleFacet(facetId)`: flips `open` of the named facet. Reading
`prevState[facetId].open` of a missing entry throws, modelled as `none`. -/
def toggleFacet (s : FacetState) (facetId : String) : Option FacetState :=
  match lookup s facetId with
  | none => none
  | some f => some (setKey s facetId { f with «open» := !f.«open» })

/-- `expandFacet(facetId)`: with `monoOpen` first sets `open: false` on every
facet, then sets `open: true` on the target; a missing target becomes a stub
entry (spread of `undefined`). -/
def expandFacet (monoOpen : Bool) (s : FacetState) (facetId : String) : FacetState :=
  let s' := if monoOpen then s.map (fun p => (p.1, { p.2 with «open» := false })) else s
  setKey s' facetId { (lookup s' facetId).getD stubFacet with «open» := true }

/-- `closeFacet(facetId)`: sets `open: false` on the named facet; a missing
target becomes a stub entry. -/
def closeFacet (s : FacetState) (facetId : String) : FacetState :=
  setKey s facetId { (lookup s facetId).getD stubFacet with «open» := false }

/-- `toggleSelected(facet, item)`: maps over the caller-supplied `facet.items`
flipping `selected` where `value` matches, stores the result under `facet.id`
and recomputes `allSelected` against `facet.items.length`. -/
def toggleSelected (s : FacetState) (facet : Facet) (item : FacetItem) : FacetState :=
  let newItems := facet.items.map (fun i =>
    if i.value == item.value then { i with selected := !i.selected } else i)
  let selectedItems := newItems.filter (fun i => i.selected)
  setKey s facet.id
    { (lookup s facet.id).getD stubFacet with
      items := newItems,
      allSelected := selectedItems.length == facet.items.length }

/-- `selectOnly(facet, item)`: maps over the item list stored in the state,
selecting exactly the matching value, and sets `allSelected: false`. Reading
`.items` of a missing entry throws, modelled as `none`. -/
def selectOnly (s : FacetState) (facet : Facet) (item : FacetItem) : Option FacetState :=
  match lookup s facet.id with
  | none => none
  | some g =>
    some (setKey s facet.id
      { g with
        allSelected := false,
        items := g.items.map (fun i => { i with selected := i.value == item.value }) })

/-- Case-insensitive JavaScript `String.prototype.includes` over char lists:
`jsIncludes needle hay` holds when `needle` occurs contiguously in `hay`. -/
def jsIncludes : List Char → List Char → Bool
  | needle, [] => needle.isEmpty
  | needle, c :: t => needle.isPrefixOf (c :: t) || jsIncludes needle t

/-- JavaScript `String.prototype.toLowerCase` over the string's characters
(identical to `String.toLower`, written charwise so the kernel can
evaluate it). -/
def jsToLower (s : String) : List Char := s.toList.map Char.toLower

/-- `updateSearch({accessor, value})`: finds the first facet whose `accessor`
matches (no-op when none does); a truthy (non-empty) `value` filters the
current items by case-insensitive label containment, an empty `value` rebuilds
the items from `originalItems` (falling back to `items` when unset), taking
each `selected` flag from the same-value item of the current list and `false`
when absent; stores `search` and the captured `originalItems`. -/
def updateSearch (s : FacetState) (accessor value : String) : FacetState :=
  match s.find? (fun p => p.2.accessor == accessor) with
  | none => s
  | some (facetId, facet) =>
    let originalItems := facet.originalItems.getD facet.items
    let newItems :=
      if value == "" then
        originalItems.map (fun it =>
          { it with selected :=
              ((facet.items.find? (fun fi => fi.value == it.value)).map
                (fun fi => fi.selected)).getD false })
      else
        facet.items.filter (fun it => jsIncludes (jsToLower value) (jsToLower it.label))
    setKey s facetId
      { facet with items := newItems, search := some value, originalItems := some originalItems }

/-- `selectAllItems(facet)`: stores the caller-supplied items with every
`selected: true` and sets `allSelected: true`. -/
def selectAllItems (s : FacetState) (facet : Facet) : FacetState :=
  setKey s facet.id
    { (lookup s facet.id).getD stubFacet with
      items := facet.items.map (fun i => { i with selected := true }),
      allSelected := true }

/-- `deSelectAllItems(facet)`: stores the caller-supplied items with every
`selected: false` and sets `allSelected: false`. -/
def deSelectAllItems (s : FacetState) (facet : Facet) : FacetState :=
  setKey s facet.id
    { (lookup s facet.id).getD stubFacet with
      items := facet.items.map (fun i => { i with selected := false }),
      allSelected := false }

/-- Number of facets currently open. -/
def openCount (s : FacetState) : Nat := s.countP (fun p => p.2.«open»)

/-- The mono-open invariant: at most one facet is open. -/
def AtMostOneOpen (s : FacetState) : Prop := openCount s ≤ 1

/-- One application of a store operation other than `expandAllFacets` and
`toggleFacet`, with `expandFacet` running in mono-open mode; the throwing
`selectOnly` contributes a step only when it succeeds. -/
inductive MonoStep : FacetState → FacetState → Prop where
  | closeAll (s : FacetState) : MonoStep s (closeAllFacets s)
  | expand (s : FacetState) (facetId : String) : MonoStep s (expandFacet true s facetId)
  | close (s : FacetState) (facetId : String) : MonoStep s (closeFacet s facetId)
  | toggleSel (s : FacetState) (facet : Facet) (item : FacetItem) :
      MonoStep s (toggleSelected s facet item)
  | selOnly (s s' : FacetState) (facet : Facet) (item : FacetItem)
      (h : selectOnly s facet item = some s') : MonoStep s s'
  | search (s : FacetState) (accessor text : String) :
      MonoStep s (updateSearch s accessor text)
  | selAll (s : FacetState) (facet : Facet) : MonoStep s (selectAllItems s facet)
  | deselAll (s : FacetState) (facet : Facet) : MonoStep s (deSelectAllItems s facet)

/-- Reachability by any sequence of `MonoStep` operations. -/
inductive MonoReach : FacetState → FacetState → Prop where
  | refl (s : FacetState) : MonoReach s s
  | step (s t u : FacetState) (h1 : MonoReach s t) (h2 : MonoStep t u) : MonoReach s u

/-- Sample data mirroring the repository demo: the `status` facet. -/
def itemOpen : FacetItem := { value := "1", label := "Open", selected := false }

/-- Sample item with label `Closed`. -/
def itemClosed : FacetItem := { value := "2", label := "Closed", selected := false }

/-- Sample item with label `Pending`. -/
def itemPending : FacetItem := { value := "3", label := "Pending", selected := false }

/-- Sample facet with three items, as in the repository demo. -/
def statusFacet : Facet :=
  { id := "status", title := "Status", accessor := "status",
    items := [itemOpen, itemClosed, itemPending], originalItems := none,
    filteredItems := none, «open» := false, allSelected := false, search := some "" }

/-- Sample item of the single-item facet. -/
def soloItem : FacetItem := { value := "9", label := "High", selected := false }

/-- Sample facet whose item list has exactly one element. -/
def soloFacet : Facet :=
  { id := "solo", title := "Solo", accessor := "solo", items := [soloItem],
    originalItems := none, filteredItems := none, «open» := false,
    allSelected := false, search := none }

/-- Sample two-facet store state. -/
def sampleState : FacetState := [("status", statusFacet), ("solo", soloFacet)]

/-- Sample facet absent from `sampleState`. -/
def ghostFacet : Facet :=
  { id := "ghost", title := "Ghost", accessor := "ghost", items := [itemOpen],
    originalItems := none, filteredItems := none, «open» := false,
    allSelected := false, search := none }

/-- Sample state whose stored `status` items differ from `statusFacet.items`. -/
def staleState : FacetState :=
  [("status", { statusFacet with items := [itemOpen] }), ("solo", soloFacet)]

/-- Sample facet after a search: `originalItems` populated, `items` filtered. -/
def searchedFacet : Facet :=
  { statusFacet with
    originalItems := some [itemOpen, itemClosed, itemPending],
    items := [itemClosed],
    search := some "clo" }

/-- Sample state with a populated `originalItems`. -/
def searchedState : FacetState := [("status", searchedFacet), ("solo", soloFacet)]

/-- Sample two-facet state with both facets closed and no items. -/
def facetA : Facet :=
  { id := "a", title := "A", accessor := "a", items := [], originalItems := none,
    filteredItems := none, «open» := false, allSelected := false, search := none }

/-- Second closed sample facet. -/
def facetB : Facet :=
  { id := "b", title := "B", accessor := "b", items := [], originalItems := none,
    filteredItems := none, «open» := false, allSelected := false, search := none }

/-- Two-facet state used for the mono-open counterexample. -/
def twoFacetState : FacetState := [("a", facetA), ("b", facetB)]

/-- A missing key means no entry carries it. -/
theorem lookup_eq_none_iff (s : FacetState) (k : String) :
    lookup s k = none ↔ ∀ p ∈ s, p.1 ≠ k := by
  simp [lookup, List.find?_eq_none]

/-- Key presence and lookup success coincide. -/
theorem hasKey_eq_false_iff (s : FacetState) (k : String) :
    hasKey s k = false ↔ ∀ p ∈ s, p.1 ≠ k := by
  simp [hasKey]

/-- A successful lookup certifies key presence. -/
theorem hasKey_of_lookup (s : FacetState) (k : String) (f : Facet)
    (h : lookup s k = some f) : hasKey s k = true := by
  rcases hk : hasKey s k with _ | _
  · have := (hasKey_eq_false_iff s k).1 hk
    have hnone := (lookup_eq_none_iff s k).2 this
    rw [h] at hnone
    exact absurd hnone (by simp)
  · rfl

/-- Finding the written key in the replacement map yields the new pair
exactly when the key was present. -/
theorem find_map_repl_self (t : FacetState) (k : String) (f : Facet) :
    List.find? (fun p => p.1 == k) (t.map (fun p => if p.1 == k then (k, f) else p)) =
      if hasKey t k then some (k, f) else none := by
  induction t with
  | nil => rfl
  | cons p t ih =>
    rcases hp : (p.1 == k) with _ | _
    · simp only [List.map_cons, hp, Bool.false_eq_true, if_false]
      rw [List.find?_cons]
      simp only [hp]
      rw [ih]
      have : hasKey (p :: t) k = hasKey t k := by
        simp [hasKey, List.any_cons, hp]
      rw [this]
    · simp only [List.map_cons, hp, if_true]
      rw [List.find?_cons]
      have hk : hasKey (p :: t) k = true := by
        simp [hasKey, List.any_cons, hp]
      simp [hk]

/-- Finding any other key is unaffected by the replacement map. -/
theorem find_map_repl_ne (t : FacetState) (k k' : String) (f : Facet) (h : k' ≠ k) :
    List.find? (fun p => p.1 == k') (t.map (fun p => if p.1 == k then (k, f) else p)) =
      List.find? (fun p => p.1 == k') t := by
  induction t with
  | nil => rfl
  | cons p t ih =>
    rcases hp : (p.1 == k) with _ | _
    · simp only [List.map_cons, hp, Bool.false_eq_true, if_false]
      rw [List.find?_cons, List.find?_cons]
      rcases hp' : (p.1 == k') with _ | _
      · simp only [hp']
        exact ih
      · simp [hp']
    · simp only [List.map_cons, hp, if_true]
      rw [List.find?_cons, List.find?_cons]
      have hpk : p.1 = k := by simpa using hp
      have h1 : ((k, f).1 == k') = false := by
        simp
        exact Ne.symm h
      have h2 : (p.1 == k') = false := by
        simp [hpk]
        exact Ne.symm h
      simp only [h1, h2]
      exact ih

/-- Writing a key makes it readable with the written value. -/
theorem lookup_setKey_self (s : FacetState) (k : String) (f : Facet) :
    lookup (setKey s k f) k = some f := by
  unfold setKey
  rcases hk : hasKey s k with _ | _
  · simp only [Bool.false_eq_true, if_false, lookup, List.find?_append]
    have : List.find? (fun p => p.1 == k) s = none := by
      rw [List.find?_eq_none]
      intro p hp
      simpa using (hasKey_eq_false_iff s k).1 hk p hp
    simp [this, List.find?]
  · simp only [if_true, lookup]
    rw [find_map_repl_self, hk]
    rfl

/-- Writing one key leaves every other key unchanged. -/
theorem lookup_setKey_ne (s : FacetState) (k k' : String) (f : Facet)
    (h : k' ≠ k) : lookup (setKey s k f) k' = lookup s k' := by
  unfold setKey
  rcases hk : hasKey s k with _ | _
  · simp only [Bool.false_eq_true, if_false, lookup, List.find?_append]
    have h1 : List.find? (fun p => p.1 == k') [(k, f)] = none := by
      rw [List.find?_eq_none]
      intro p hp
      simp at hp
      simp [hp]
      exact Ne.symm h
    rw [h1]
    simp
  · simp only [if_true, lookup]
    rw [find_map_repl_ne _ _ _ _ h]

/-- Every entry of the written state is the new pair or an untouched entry
under a different key. -/
theorem mem_setKey (s : FacetState) (k : String) (f : Facet) (p : String × Facet)
    (hp : p ∈ setKey s k f) : p = (k, f) ∨ (p ∈ s ∧ p.1 ≠ k) := by
  unfold setKey at hp
  rcases hk : hasKey s k with _ | _ <;> rw [hk] at hp
  · simp only [Bool.false_eq_true, if_false, List.mem_append, List.mem_singleton] at hp
    rcases hp with hp | rfl
    · exact Or.inr ⟨hp, (hasKey_eq_false_iff s k).1 hk p hp⟩
    · exact Or.inl rfl
  · simp only [if_true] at hp
    rcases List.mem_map.1 hp with ⟨q, hq, hrepl⟩
    rcases hq1 : (q.1 == k) with _ | _
    · rw [hq1] at hrepl
      simp only [Bool.false_eq_true, if_false] at hrepl
      subst hrepl
      exact Or.inr ⟨hq, by simpa using hq1⟩
    · rw [hq1] at hrepl
      simp only [if_true] at hrepl
      exact Or.inl hrepl.symm

/-- The key list after a write: unchanged for an existing key, extended by
the new key otherwise. -/
theorem keys_setKey (s : FacetState) (k : String) (f : Facet) :
    keys (setKey s k f) = if hasKey s k then keys s else keys s ++ [k] := by
  unfold setKey
  rcases hk : hasKey s k with _ | _
  · simp [keys]
  · simp only [if_true, keys, List.map_map]
    apply List.map_congr_left
    intro p _
    rcases hp : (p.1 == k) with _ | _
    · have hne : p.1 ≠ k := by simpa using hp
      simp [Function.comp, hne]
    · have heq : p.1 = k := by simpa using hp
      simp [Function.comp, heq]

/-- An absent key is not among the keys. -/
theorem not_mem_keys_of_hasKey_false (s : FacetState) (k : String)
    (h : hasKey s k = false) : k ∉ keys s := by
  intro hmem
  rcases List.mem_map.1 hmem with ⟨p, hp, hpk⟩
  exact (hasKey_eq_false_iff s k).1 h p hp hpk

/-- Writes preserve key uniqueness. -/
theorem keysNodup_setKey (s : FacetState) (k : String) (f : Facet)
    (h : keysNodup s) : keysNodup (setKey s k f) := by
  unfold keysNodup
  rw [keys_setKey]
  rcases hk : hasKey s k with _ | _
  · simp only [Bool.false_eq_true, if_false]
    rw [List.nodup_append]
    refine ⟨h, List.nodup_singleton k, ?_⟩
    intro a ha hb
    have hb' : a = k := List.mem_singleton.1 hb
    rw [hb'] at ha
    exact not_mem_keys_of_hasKey_false s k hk ha
  · simpa using h

/-- With unique keys, membership determines the lookup result. -/
theorem lookup_of_mem_nodup (s : FacetState) (k : String) (f : Facet)
    (hnd : keysNodup s) (hm : (k, f) ∈ s) : lookup s k = some f := by
  induction s with
  | nil => cases hm
  | cons p t ih =>
    have hnd' : keysNodup t := by
      have := hnd
      unfold keysNodup keys at this
      simp only [List.map_cons, List.nodup_cons] at this
      exact this.2
    rcases List.mem_cons.1 hm with rfl | hmt
    · simp [lookup, List.find?_cons]
    · have hne : p.1 ≠ k := by
        intro hkey
        have := hnd
        unfold keysNodup keys at this
        simp only [List.map_cons, List.nodup_cons] at this
        apply this.1
        rw [hkey]
        exact List.mem_map.2 ⟨(k, f), hmt, rfl⟩
      simp only [lookup, List.find?_cons]
      have : (p.1 == k) = false := by simpa using hne
      rw [this]
      exact ih hnd' hmt

/-- Number of entries carrying a given key. -/
theorem keyCount_le_one (s : FacetState) (k : String) (hnd : keysNodup s) :
    s.countP (fun p => p.1 == k) ≤ 1 := by
  have h1 : s.countP (fun p => p.1 == k) = (keys s).count k := by
    rw [List.count_eq_countP, keys, List.countP_map]
    apply List.countP_congr
    intro p _
    simp [Function.comp]
  rw [h1]
  exact List.nodup_iff_count_le_one.1 hnd k

/-- An existing key is carried by exactly one entry. -/
theorem keyCount_eq_one (s : FacetState) (k : String) (hnd : keysNodup s)
    (h : hasKey s k = true) : s.countP (fun p => p.1 == k) = 1 := by
  have h1 : s.countP (fun p => p.1 == k) = (keys s).count k := by
    rw [List.count_eq_countP, keys, List.countP_map]
    apply List.countP_congr
    intro p _
    simp [Function.comp]
  rw [h1]
  apply List.count_eq_one_of_mem hnd
  rcases List.any_eq_true.1 h with ⟨p, hp, hpk⟩
  exact List.mem_map.2 ⟨p, hp, by simpa using hpk⟩

/-- Closing every facet leaves nothing open. -/
theorem openCount_closeAll (s : FacetState) : openCount (closeAllFacets s) = 0 := by
  unfold openCount closeAllFacets
  rw [List.countP_map]
  rw [List.countP_eq_zero]
  intro p _
  simp [Function.comp]

/-- Writing a closed facet never increases the number of open ones. -/
theorem openCount_setKey_le (s : FacetState) (k : String) (f : Facet)
    (hf : f.«open» = false) : openCount (setKey s k f) ≤ openCount s := by
  unfold openCount setKey
  rcases hk : hasKey s k with _ | _
  · simp only [Bool.false_eq_true, if_false, List.countP_append]
    have : List.countP (fun p => p.2.«open») [(k, f)] = 0 := by
      simp [List.countP_cons, hf]
    omega
  · simp only [if_true]
    rw [List.countP_map]
    apply List.countP_mono_left
    intro p _ hp
    rcases hpk : (p.1 == k) with _ | _
    · simpa [Function.comp, hpk] using hp
    · simp only [Function.comp, hpk, if_true] at hp
      rw [hf] at hp
      cases hp

/-- Rewriting an entry without changing its `open` flag leaves the open
count unchanged (unique keys). -/
theorem openCount_setKey_eq (s : FacetState) (k : String) (f g : Facet)
    (hnd : keysNodup s) (hg : lookup s k = some g) (hf : f.«open» = g.«open») :
    openCount (setKey s k f) = openCount s := by
  unfold openCount setKey
  rw [hasKey_of_lookup s k g hg]
  simp only [if_true]
  rw [List.countP_map]
  apply List.countP_congr
  intro p hp
  rcases hpk : (p.1 == k) with _ | _
  · simp [Function.comp, hpk]
  · have hk : p.1 = k := by simpa using hpk
    have hpg : p.2 = g := by
      have hmem : (k, p.2) ∈ s := by
        rw [← hk]
        exact hp
      have := lookup_of_mem_nodup s k p.2 hnd hmem
      rw [hg] at this
      exact (Option.some_inj.1 this).symm
    simp [Function.comp, hpk, hf, hpg]

/-- In mono-open mode, expanding leaves at most one facet open. -/
theorem openCount_expand_le_one (s : FacetState) (k : String) (hnd : keysNodup s) :
    openCount (expandFacet true s k) ≤ 1 := by
  unfold expandFacet
  simp only [if_true]
  set s' : FacetState := s.map (fun p => (p.1, { p.2 with «open» := false })) with hs'
  have hclosed : ∀ p ∈ s', p.2.«open» = false := by
    intro p hp
    rcases List.mem_map.1 hp with ⟨q, _, rfl⟩
    rfl
  unfold openCount setKey
  rcases hk : hasKey s' k with _ | _
  · simp only [Bool.false_eq_true, if_false, List.countP_append]
    have h0 : List.countP (fun p => p.2.«open») s' = 0 := by
      rw [List.countP_eq_zero]
      intro p hp
      simp [hclosed p hp]
    rw [h0]
    generalize ({(lookup s' k).getD stubFacet with «open» := true} : Facet) = fnew
    rw [List.countP_cons]
    split <;> simp
  · simp only [if_true]
    rw [List.countP_map]
    have hnd' : keysNodup s' := by
      unfold keysNodup keys
      rw [hs', List.map_map]
      exact hnd
    calc List.countP
          ((fun p => p.2.«open») ∘ fun p =>
            if p.1 == k then (k, {(lookup s' k).getD stubFacet with «open» := true}) else p) s'
        ≤ List.countP (fun p => p.1 == k) s' := by
          apply List.countP_mono_left
          intro p hp hopen
          rcases hpk : (p.1 == k) with _ | _
          · rw [Function.comp, hpk] at hopen
            simp only [Bool.false_eq_true, if_false] at hopen
            rw [hclosed p hp] at hopen
            cases hopen
          · rfl
      _ ≤ 1 := keyCount_le_one s' k hnd'

/-- Looking up through a value-only map transforms the found value. -/
theorem lookup_mapVals (s : FacetState) (k : String) (fn : Facet → Facet) :
    lookup (s.map (fun p => (p.1, fn p.2))) k = (lookup s k).map fn := by
  induction s with
  | nil => rfl
  | cons p t ih =>
    rcases hp : (p.1 == k) with _ | _
    · have h1 : lookup ((p.1, fn p.2) :: t.map (fun p => (p.1, fn p.2))) k =
          lookup (t.map (fun p => (p.1, fn p.2))) k := by
        simp [lookup, List.find?_cons, hp]
      have h2 : lookup (p :: t) k = lookup t k := by
        simp [lookup, List.find?_cons, hp]
      rw [List.map_cons, h1, h2, ih]
    · have h1 : lookup ((p.1, fn p.2) :: t.map (fun p => (p.1, fn p.2))) k =
          some (fn p.2) := by
        simp [lookup, List.find?_cons, hp]
      have h2 : lookup (p :: t) k = some p.2 := by
        simp [lookup, List.find?_cons, hp]
      rw [List.map_cons, h1, h2]
      rfl

/-- Value-only maps preserve the key list. -/
theorem keys_mapVals (s : FacetState) (fn : Facet → Facet) :
    keys (s.map (fun p => (p.1, fn p.2))) = keys s := by
  unfold keys
  rw [List.map_map]
  apply List.map_congr_left
  intro p _
  rfl

/-- Value-only maps preserve key uniqueness. -/
theorem keysNodup_mapVals (s : FacetState) (fn : Facet → Facet)
    (h : keysNodup s) : keysNodup (s.map (fun p => (p.1, fn p.2))) := by
  unfold keysNodup
  rw [keys_mapVals]
  exact h

/-- A write is read back at the written key and invisible elsewhere. -/
theorem lookup_setKey_cases (s : FacetState) (k0 : String) (f : Facet) (k : String) :
    lookup (setKey s k0 f) k = if k = k0 then some f else lookup s k := by
  by_cases h : k = k0
  · subst h
    simp [lookup_setKey_self]
  · simp [h, lookup_setKey_ne s k0 k f h]

/-- Unfolding equation for `toggleSelected`. -/
theorem toggleSelected_eq (s : FacetState) (facet : Facet) (item : FacetItem) :
    toggleSelected s facet item = setKey s facet.id
      { (lookup s facet.id).getD stubFacet with
        items := facet.items.map (fun i =>
          if i.value == item.value then { i with selected := !i.selected } else i),
        allSelected := ((facet.items.map (fun i =>
          if i.value == item.value then { i with selected := !i.selected } else i)).filter
            (fun i => i.selected)).length == facet.items.length } := rfl

/-- Every mono-open-safe step keeps keys unique and at most one facet open. -/
theorem monoStep_preserves (t u : FacetState) (h : MonoStep t u) (hnd : keysNodup t) :
    keysNodup u ∧ (openCount t ≤ 1 → openCount u ≤ 1) := by
  cases h with
  | closeAll =>
    constructor
    · unfold closeAllFacets
      exact keysNodup_mapVals t (fun f => { f with «open» := false }) hnd
    · intro _
      rw [openCount_closeAll]
      omega
  | expand facetId =>
    constructor
    · unfold expandFacet
      simp only [if_true]
      exact keysNodup_setKey _ _ _
        (keysNodup_mapVals t (fun f => { f with «open» := false }) hnd)
    · intro _
      exact openCount_expand_le_one t facetId hnd
  | close facetId =>
    refine ⟨keysNodup_setKey _ _ _ hnd, fun h1 => ?_⟩
    unfold closeFacet
    exact le_trans (openCount_setKey_le _ _ _ rfl) h1
  | toggleSel facet item =>
    refine ⟨keysNodup_setKey _ _ _ hnd, fun h1 => ?_⟩
    rw [toggleSelected_eq]
    rcases hg : lookup t facet.id with _ | g
    · exact le_trans (openCount_setKey_le _ _ _ (by rfl)) h1
    · exact le_trans (le_of_eq (openCount_setKey_eq t facet.id _ g hnd hg (by rfl))) h1
  | selOnly s2 facet item hsel =>
    rcases hg : lookup t facet.id with _ | g
    · simp only [selectOnly, hg] at hsel
      exact absurd hsel (by simp)
    · simp only [selectOnly, hg, Option.some.injEq] at hsel
      subst hsel
      refine ⟨keysNodup_setKey _ _ _ hnd, fun h1 => ?_⟩
      exact le_trans (le_of_eq (openCount_setKey_eq t facet.id _ g hnd hg (by rfl))) h1
  | search accessor text =>
    rcases hfind : t.find? (fun p => p.2.accessor == accessor) with _ | pair
    · simp only [updateSearch, hfind]
      exact ⟨hnd, fun h1 => h1⟩
    · rcases pair with ⟨k0, facet⟩
      have hmem : (k0, facet) ∈ t := List.mem_of_find?_eq_some hfind
      have hlk : lookup t k0 = some facet := lookup_of_mem_nodup t k0 facet hnd hmem
      simp only [updateSearch, hfind]
      refine ⟨keysNodup_setKey _ _ _ hnd, fun h1 => ?_⟩
      exact le_trans (le_of_eq (openCount_setKey_eq t k0 _ facet hnd hlk (by rfl))) h1
  | selAll facet =>
    refine ⟨keysNodup_setKey _ _ _ hnd, fun h1 => ?_⟩
    unfold selectAllItems
    rcases hg : lookup t facet.id with _ | g
    · exact le_trans (openCount_setKey_le _ _ _ (by rfl)) h1
    · exact le_trans (le_of_eq (openCount_setKey_eq t facet.id _ g hnd hg (by rfl))) h1
  | deselAll facet =>
    refine ⟨keysNodup_setKey _ _ _ hnd, fun h1 => ?_⟩
    unfold deSelectAllItems
    rcases hg : lookup t facet.id with _ | g
    · exact le_trans (openCount_setKey_le _ _ _ (by rfl)) h1
    · exact le_trans (le_of_eq (openCount_setKey_eq t facet.id _ g hnd hg (by rfl))) h1

/-- Unfolding equation for `expandFacet`. -/
theorem expandFacet_eq (monoOpen : Bool) (s : FacetState) (facetId : String) :
    expandFacet monoOpen s facetId =
      setKey (if monoOpen then s.map (fun p => (p.1, { p.2 with «open» := false })) else s)
        facetId
        { (lookup (if monoOpen then s.map (fun p => (p.1, { p.2 with «open» := false })) else s)
            facetId).getD stubFacet with «open» := true } := rfl

/-- A write preserves a populated `originalItems` at any key, provided the
value written at that key itself carries it. -/
theorem origItems_setKey (s : FacetState) (k0 : String) (F : Facet) (k : String)
    (g : Facet) (l : List FacetItem) (hg : lookup s k = some g)
    (hl : g.originalItems = some l) (hF : k = k0 → F.originalItems = some l) :
    ∃ f', lookup (setKey s k0 F) k = some f' ∧ f'.originalItems = some l := by
  rw [lookup_setKey_cases]
  by_cases hkk : k = k0
  · simp only [if_pos hkk]
    exact ⟨F, rfl, hF hkk⟩
  · simp only [if_neg hkk]
    exact ⟨g, hg, hl⟩

/-- The stored `allSelected` comparison agrees with the all-items-selected
predicate whenever the compared count equals the list length. -/
theorem allSelected_iff_of_counts (its : List FacetItem) (n : Nat)
    (hn : its.length = n) :
    (((its.filter (fun i => i.selected)).length == n) = true ↔
      ∀ i ∈ its, i.selected = true) := by
  rw [beq_iff_eq, ← hn]
  exact List.filter_length_eq_length

/-- C1 fails as stated: `selectOnly` on a facet whose items list has exactly
one element leaves every item selected while `allSelected` is false, so the
claimed iff between `allSelected` and all-items-selected does not hold after
that mutation. -/
theorem C1_counterexample :
    ¬ (∀ p ∈ (selectOnly [("solo", soloFacet)] soloFacet soloItem).getD [],
        (p.2.allSelected = true ↔ ∀ i ∈ p.2.items, i.selected = true)) := by
  decide

/-- C1 amended: the iff between `allSelected` and all-items-selected holds
after `toggleSelected` and `selectAllItems`; after `deSelectAllItems` it
holds whenever the facet argument has at least one item; `selectOnly` sets
`allSelected = false` unconditionally, so after it the iff holds exactly
when some stored item's value differs from the selected one — in particular
it fails on a facet whose items list has exactly one element. -/
theorem C1_amended (s : FacetState) (facet : Facet) (item : FacetItem) :
    (∀ f', lookup (toggleSelected s facet item) facet.id = some f' →
      (f'.allSelected = true ↔ ∀ i ∈ f'.items, i.selected = true)) ∧
    (∀ f', lookup (selectAllItems s facet) facet.id = some f' →
      (f'.allSelected = true ↔ ∀ i ∈ f'.items, i.selected = true)) ∧
    (facet.items ≠ [] →
      ∀ f', lookup (deSelectAllItems s facet) facet.id = some f' →
        (f'.allSelected = true ↔ ∀ i ∈ f'.items, i.selected = true)) ∧
    (∀ g s2 f', lookup s facet.id = some g → selectOnly s facet item = some s2 →
      lookup s2 facet.id = some f' →
      f'.allSelected = false ∧
      ((∃ i ∈ g.items, i.value ≠ item.value) →
        (f'.allSelected = true ↔ ∀ i ∈ f'.items, i.selected = true))) := by
  refine ⟨?_, ?_, ?_, ?_⟩
  · intro f' h
    rw [toggleSelected_eq, lookup_setKey_self] at h
    rcases Option.some_inj.1 h with rfl
    exact allSelected_iff_of_counts
      (facet.items.map (fun i =>
        if i.value == item.value then { i with selected := !i.selected } else i))
      facet.items.length (List.length_map _ _)
  · intro f' h
    unfold selectAllItems at h
    rw [lookup_setKey_self] at h
    rcases Option.some_inj.1 h with rfl
    constructor
    · intro _ i hi
      rcases List.mem_map.1 hi with ⟨j, _, rfl⟩
      rfl
    · intro _
      rfl
  · intro hne f' h
    unfold deSelectAllItems at h
    rw [lookup_setKey_self] at h
    rcases Option.some_inj.1 h with rfl
    constructor
    · intro habs
      exact absurd habs (by simp)
    · intro hall
      exfalso
      rcases List.exists_cons_of_ne_nil hne with ⟨a, rest, heq⟩
      have hmem : ({ a with selected := false } : FacetItem) ∈
          facet.items.map (fun i => { i with selected := false }) := by
        rw [heq]
        exact List.mem_map.2 ⟨a, List.mem_cons_self a rest, rfl⟩
      have hsel := hall _ hmem
      simp at hsel
  · intro g s2 f' hg hsel hf
    simp only [selectOnly, hg, Option.some.injEq] at hsel
    subst hsel
    rw [lookup_setKey_self] at hf
    rcases Option.some_inj.1 hf with rfl
    refine ⟨rfl, ?_⟩
    rintro ⟨i0, hi0, hv⟩
    constructor
    · intro habs
      exact absurd habs (by simp)
    · intro hall
      exfalso
      have hmem : ({ i0 with selected := i0.value == item.value } : FacetItem) ∈
          g.items.map (fun i => { i with selected := i.value == item.value }) :=
        List.mem_map.2 ⟨i0, hi0, rfl⟩
      have hs := hall _ hmem
      simp only [] at hs
      exact hv (by simpa using hs)

/-- Witness for the amended C1 at a concrete state: `selectOnly` on the
three-item status facet yields `allSelected = false`. -/
theorem C1_amended_witness :
    ((lookup ((selectOnly sampleState statusFacet itemClosed).getD [])
      "status").getD stubFacet).allSelected = false := by
  have h := (C1_amended sampleState statusFacet itemClosed).2.2.2
    statusFacet
    ((selectOnly sampleState statusFacet itemClosed).getD [])
    ((lookup ((selectOnly sampleState statusFacet itemClosed).getD [])
      "status").getD stubFacet)
    (by rfl) (by rfl) (by rfl)
  exact h.1

/-- C2: `updateSearch` is a no-op when no facet's accessor matches; with a
matching facet and non-empty text the facet's items become the current items
whose lowercased label contains the lowercased text; with empty text the
items are rebuilt from `originalItems` (falling back to the current items),
taking each `selected` flag from the same-value current item and `false`
when absent. -/
theorem C2_updateSearch (s : FacetState) (accessor text : String) :
    ((∀ p ∈ s, p.2.accessor ≠ accessor) → updateSearch s accessor text = s) ∧
    (∀ k0 facet, s.find? (fun p => p.2.accessor == accessor) = some (k0, facet) →
      (text ≠ "" → ∃ f', lookup (updateSearch s accessor text) k0 = some f' ∧
        f'.items = facet.items.filter
          (fun it => jsIncludes (jsToLower text) (jsToLower it.label))) ∧
      (text = "" → ∃ f', lookup (updateSearch s accessor text) k0 = some f' ∧
        f'.items = (facet.originalItems.getD facet.items).map (fun it =>
          { it with selected :=
              ((facet.items.find? (fun fi => fi.value == it.value)).map
                (fun fi => fi.selected)).getD false }))) := by
  constructor
  · intro ha
    have hfind : s.find? (fun p => p.2.accessor == accessor) = none := by
      rw [List.find?_eq_none]
      intro p hp
      simpa using ha p hp
    simp only [updateSearch, hfind]
  · intro k0 facet hfind
    constructor
    · intro hne
      have hb : (text == "") = false := by
        rw [beq_eq_false_iff_ne]
        exact hne
      simp only [updateSearch, hfind, hb, Bool.false_eq_true, if_false]
      exact ⟨_, lookup_setKey_self _ _ _, rfl⟩
    · intro heq
      subst heq
      simp only [updateSearch, hfind]
      exact ⟨_, lookup_setKey_self _ _ _, rfl⟩

/-- Witness for C2: searching the status facet for `clo` keeps exactly the
`Closed` item. -/
theorem C2_updateSearch_witness :
    (lookup (updateSearch [("status", statusFacet)] "status" "clo") "status").map
      (fun f => f.items) = some [itemClosed] := by
  have h := ((C2_updateSearch [("status", statusFacet)] "status" "clo").2
    "status" statusFacet (by rfl)).1 (by decide)
  rcases h with ⟨f', hf, hitems⟩
  rw [hf]
  simp only [Option.map_some']
  rw [hitems]
  decide

/-- C3 fails as stated: `toggleFacet` on a missing id dereferences
`undefined` and throws instead of returning the state unchanged, and
`expandFacet` on a missing id creates a new stub entry, changing the state. -/
theorem C3_counterexample :
    toggleFacet sampleState "missing" = none ∧
    expandFacet false sampleState "missing" ≠ sampleState := by
  exact ⟨rfl, by decide⟩

/-- C3 amended: only `updateSearch` short-circuits on an absent accessor,
returning the state unchanged; `toggleFacet` and `selectOnly` on a missing
facet id throw a TypeError (modelled as `none`); `expandFacet`, `closeFacet`,
`toggleSelected`, `selectAllItems` and `deSelectAllItems` on a missing id do
not throw but insert a stub entry under that id rather than leaving the state
unchanged. -/
theorem C3_amended (s : FacetState) (k accessor text : String) (facet : Facet)
    (item : FacetItem) (mono : Bool)
    (hk : lookup s k = none) (hf : lookup s facet.id = none)
    (ha : ∀ p ∈ s, p.2.accessor ≠ accessor) :
    updateSearch s accessor text = s ∧
    toggleFacet s k = none ∧
    selectOnly s facet item = none ∧
    lookup (expandFacet mono s k) k ≠ none ∧
    lookup (closeFacet s k) k ≠ none ∧
    lookup (toggleSelected s facet item) facet.id ≠ none ∧
    lookup (selectAllItems s facet) facet.id ≠ none ∧
    lookup (deSelectAllItems s facet) facet.id ≠ none := by
  have hfind : s.find? (fun p => p.2.accessor == accessor) = none := by
    rw [List.find?_eq_none]
    intro p hp
    simpa using ha p hp
  refine ⟨by simp only [updateSearch, hfind], by simp only [toggleFacet, hk],
    by simp only [selectOnly, hf], ?_, ?_, ?_, ?_, ?_⟩
  · rw [expandFacet_eq, lookup_setKey_self]
    simp
  · unfold closeFacet
    rw [lookup_setKey_self]
    simp
  · rw [toggleSelected_eq, lookup_setKey_self]
    simp
  · unfold selectAllItems
    rw [lookup_setKey_self]
    simp
  · unfold deSelectAllItems
    rw [lookup_setKey_self]
    simp

/-- Witness for the amended C3 at a concrete state. -/
theorem C3_amended_witness :
    updateSearch sampleState "nosuch" "x" = sampleState ∧
    lookup (closeFacet sampleState "missing") "missing" ≠ none := by
  have h := C3_amended sampleState "missing" "nosuch" "x" ghostFacet soloItem false
    (by rfl) (by rfl) (by decide)
  exact ⟨h.1, h.2.2.2.2.1⟩

/-- A lookup that is not `none` certifies key presence. -/
theorem hasKey_of_lookup_ne_none (s : FacetState) (k : String)
    (h : lookup s k ≠ none) : hasKey s k = true := by
  rcases hl : lookup s k with _ | f
  · exact absurd hl h
  · exact hasKey_of_lookup s k f hl

/-- C4: with mono-open configured, expanding an existing facet leaves
exactly one facet open, namely the target. -/
theorem C4_monoOpen_exactly_one (s : FacetState) (facetId : String)
    (hnd : keysNodup s) (hex : hasKey s facetId = true) :
    (∀ p ∈ expandFacet true s facetId, (p.2.«open» = true ↔ p.1 = facetId)) ∧
    openCount (expandFacet true s facetId) = 1 := by
  have hiff : ∀ p ∈ expandFacet true s facetId, (p.2.«open» = true ↔ p.1 = facetId) := by
    intro p hp
    rw [expandFacet_eq] at hp
    simp only [if_true] at hp
    rcases mem_setKey _ _ _ _ hp with heq | ⟨hmem, hne⟩
    · subst heq
      exact ⟨fun _ => rfl, fun _ => rfl⟩
    · rcases List.mem_map.1 hmem with ⟨q, _, rfl⟩
      constructor
      · intro habs
        exact absurd habs (by simp)
      · intro hkey
        exact absurd hkey hne
  refine ⟨hiff, ?_⟩
  have h1 : openCount (expandFacet true s facetId) =
      (expandFacet true s facetId).countP (fun p => p.1 == facetId) := by
    unfold openCount
    apply List.countP_congr
    intro p hp
    exact (hiff p hp).trans beq_iff_eq.symm
  rw [h1]
  apply keyCount_eq_one
  · rw [expandFacet_eq]
    simp only [if_true]
    exact keysNodup_setKey _ _ _
      (keysNodup_mapVals s (fun f => { f with «open» := false }) hnd)
  · apply hasKey_of_lookup_ne_none
    rw [expandFacet_eq, lookup_setKey_self]
    simp

/-- Witness for C4 at a concrete state. -/
theorem C4_monoOpen_exactly_one_witness :
    openCount (expandFacet true sampleState "solo") = 1 := by
  exact (C4_monoOpen_exactly_one sampleState "solo"
    (by show (keys sampleState).Nodup; decide) (by decide)).2

/-- C5 fails as stated: `expandAllFacets`, one of the listed operations,
opens every facet, taking a two-facet state satisfying at-most-one-open to a
state with two open facets. -/
theorem C5_counterexample :
    AtMostOneOpen twoFacetState ∧ ¬ AtMostOneOpen (expandAllFacets twoFacetState) := by
  constructor
  · show openCount twoFacetState ≤ 1
    decide
  · show ¬ openCount (expandAllFacets twoFacetState) ≤ 1
    decide

/-- C5 amended: with unique keys, at most one open facet is preserved by
every sequence of store operations excluding `expandAllFacets` and
`toggleFacet` (with `expandFacet` running in mono-open mode); the two
excluded operations can violate it. -/
theorem C5_amended (s s2 : FacetState) (h : MonoReach s s2) (hnd : keysNodup s)
    (h1 : AtMostOneOpen s) : AtMostOneOpen s2 := by
  have key : keysNodup s2 ∧ AtMostOneOpen s2 := by
    induction h with
    | refl => exact ⟨hnd, h1⟩
    | step t u hr hstep ih =>
      obtain ⟨hbnd, hbopen⟩ := ih
      have hp := monoStep_preserves t u hstep hbnd
      exact ⟨hp.1, hp.2 hbopen⟩
  exact key.2

/-- Witness for the amended C5: one mono-open expand step from the closed
two-facet state. -/
theorem C5_amended_witness : AtMostOneOpen (expandFacet true twoFacetState "a") := by
  refine C5_amended twoFacetState (expandFacet true twoFacetState "a")
    (MonoReach.step twoFacetState twoFacetState (expandFacet true twoFacetState "a")
      (MonoReach.refl twoFacetState) (MonoStep.expand twoFacetState "a"))
    ?_ ?_
  · show (keys twoFacetState).Nodup
    decide
  · show openCount twoFacetState ≤ 1
    decide

/-- C6: `toggleSelected` flips exactly the items whose value matches the
given item, keeps every other item unchanged, and sets `allSelected` to the
comparison of the resulting selected count against the item count captured
from the facet argument before the toggle. -/
theorem C6_toggleSelected (s : FacetState) (facet : Facet) (item : FacetItem)
    (f' : Facet) (h : lookup (toggleSelected s facet item) facet.id = some f') :
    f'.items.length = facet.items.length ∧
    (∀ (j : Nat) (a b : FacetItem), facet.items[j]? = some a → f'.items[j]? = some b →
      b.value = a.value ∧ b.label = a.label ∧
      (a.value = item.value → b.selected = !a.selected) ∧
      (a.value ≠ item.value → b.selected = a.selected)) ∧
    (f'.allSelected = true ↔
      f'.items.countP (fun i => i.selected) = facet.items.length) := by
  rw [toggleSelected_eq, lookup_setKey_self] at h
  have hF := (Option.some_inj.1 h).symm
  have hitems : f'.items = facet.items.map (fun i =>
      if i.value == item.value then { i with selected := !i.selected } else i) := by
    rw [hF]
  have hall : f'.allSelected = (((facet.items.map (fun i =>
      if i.value == item.value then { i with selected := !i.selected } else i)).filter
        (fun i => i.selected)).length == facet.items.length) := by
    rw [hF]
  refine ⟨by rw [hitems]; exact List.length_map _ _, ?_, ?_⟩
  · intro j a b ha hb
    rw [hitems, List.getElem?_map, ha, Option.map_some'] at hb
    rcases Option.some_inj.1 hb with rfl
    by_cases hv : a.value = item.value
    · have hbv : (a.value == item.value) = true := by simp [hv]
      simp [hbv, hv]
    · have hbv : (a.value == item.value) = false := by simp [hv]
      simp [hbv, hv]
  · rw [hall, hitems, List.countP_eq_length_filter]
    exact beq_iff_eq

/-- Witness for C6 at a concrete state. -/
theorem C6_toggleSelected_witness :
    ((lookup (toggleSelected sampleState statusFacet itemClosed) "status").getD
      stubFacet).items.length = statusFacet.items.length := by
  exact (C6_toggleSelected sampleState statusFacet itemClosed
    ((lookup (toggleSelected sampleState statusFacet itemClosed) "status").getD
      stubFacet) (by rfl)).1

/-- C7: a populated `originalItems` list is never replaced: after each of the
ten store operations, the facet that stored it still stores the same list. -/
theorem C7_originalItems_immutable (s : FacetState) (k : String) (g : Facet)
    (l : List FacetItem) (hnd : keysNodup s) (hg : lookup s k = some g)
    (hl : g.originalItems = some l) :
    (∃ f', lookup (closeAllFacets s) k = some f' ∧ f'.originalItems = some l) ∧
    (∃ f', lookup (expandAllFacets s) k = some f' ∧ f'.originalItems = some l) ∧
    (∀ id s2, toggleFacet s id = some s2 →
      ∃ f', lookup s2 k = some f' ∧ f'.originalItems = some l) ∧
    (∀ mono id, ∃ f', lookup (expandFacet mono s id) k = some f' ∧
      f'.originalItems = some l) ∧
    (∀ id, ∃ f', lookup (closeFacet s id) k = some f' ∧ f'.originalItems = some l) ∧
    (∀ facet item, ∃ f', lookup (toggleSelected s facet item) k = some f' ∧
      f'.originalItems = some l) ∧
    (∀ facet item s2, selectOnly s facet item = some s2 →
      ∃ f', lookup s2 k = some f' ∧ f'.originalItems = some l) ∧
    (∀ accessor text, ∃ f', lookup (updateSearch s accessor text) k = some f' ∧
      f'.originalItems = some l) ∧
    (∀ facet, ∃ f', lookup (selectAllItems s facet) k = some f' ∧
      f'.originalItems = some l) ∧
    (∀ facet, ∃ f', lookup (deSelectAllItems s facet) k = some f' ∧
      f'.originalItems = some l) := by
  have hmap : ∀ (b : Bool), ∃ f',
      lookup (s.map (fun p => (p.1, { p.2 with «open» := b }))) k = some f' ∧
      f'.originalItems = some l := by
    intro b
    have h1 := lookup_mapVals s k (fun f => { f with «open» := b })
    rw [hg] at h1
    simp only [Option.map_some'] at h1
    exact ⟨_, h1, hl⟩
  refine ⟨hmap false, hmap true, ?_, ?_, ?_, ?_, ?_, ?_, ?_, ?_⟩
  · intro id s2 htog
    rcases hlk : lookup s id with _ | f0
    · simp only [toggleFacet, hlk] at htog
      exact absurd htog (by simp)
    · simp only [toggleFacet, hlk, Option.some.injEq] at htog
      subst htog
      refine origItems_setKey s id _ k g l hg hl ?_
      intro hkk
      rw [← hkk] at hlk
      rw [hg] at hlk
      have hge : f0 = g := (Option.some_inj.1 hlk).symm
      show f0.originalItems = some l
      rw [hge]
      exact hl
  · intro mono id
    rw [expandFacet_eq]
    rcases mono with _ | _
    · simp only [Bool.false_eq_true, if_false]
      refine origItems_setKey s id _ k g l hg hl ?_
      intro hkk
      rw [← hkk, hg]
      simp only [Option.getD_some]
      exact hl
    · simp only [if_true]
      have h1 := lookup_mapVals s k (fun f => { f with «open» := false })
      rw [hg] at h1
      simp only [Option.map_some'] at h1
      refine origItems_setKey _ id _ k _ l h1 hl ?_
      intro hkk
      rw [← hkk, h1]
      simp only [Option.getD_some]
      exact hl
  · intro id
    unfold closeFacet
    refine origItems_setKey s id _ k g l hg hl ?_
    intro hkk
    rw [← hkk, hg]
    simp only [Option.getD_some]
    exact hl
  · intro facet item
    rw [toggleSelected_eq]
    refine origItems_setKey s facet.id _ k g l hg hl ?_
    intro hkk
    rw [← hkk, hg]
    simp only [Option.getD_some]
    exact hl
  · intro facet item s2 hsel
    rcases hlk : lookup s facet.id with _ | g0
    · simp only [selectOnly, hlk] at hsel
      exact absurd hsel (by simp)
    · simp only [selectOnly, hlk, Option.some.injEq] at hsel
      subst hsel
      refine origItems_setKey s facet.id _ k g l hg hl ?_
      intro hkk
      rw [← hkk] at hlk
      rw [hg] at hlk
      have hge : g0 = g := (Option.some_inj.1 hlk).symm
      show g0.originalItems = some l
      rw [hge]
      exact hl
  · intro accessor text
    rcases hfind : s.find? (fun p => p.2.accessor == accessor) with _ | pair
    · simp only [updateSearch, hfind]
      exact ⟨g, hg, hl⟩
    · rcases pair with ⟨k0, facet0⟩
      have hmem : (k0, facet0) ∈ s := List.mem_of_find?_eq_some hfind
      have hlk : lookup s k0 = some facet0 := lookup_of_mem_nodup s k0 facet0 hnd hmem
      simp only [updateSearch, hfind]
      refine origItems_setKey s k0 _ k g l hg hl ?_
      intro hkk
      rw [← hkk] at hlk
      rw [hg] at hlk
      have hge : facet0 = g := (Option.some_inj.1 hlk).symm
      show some (facet0.originalItems.getD facet0.items) = some l
      rw [hge, hl]
      simp only [Option.getD_some]
  · intro facet
    unfold selectAllItems
    refine origItems_setKey s facet.id _ k g l hg hl ?_
    intro hkk
    rw [← hkk, hg]
    simp only [Option.getD_some]
    exact hl
  · intro facet
    unfold deSelectAllItems
    refine origItems_setKey s facet.id _ k g l hg hl ?_
    intro hkk
    rw [← hkk, hg]
    simp only [Option.getD_some]
    exact hl

/-- Witness for C7 at a concrete state: clearing the search keeps the
populated `originalItems`. -/
theorem C7_originalItems_immutable_witness :
    (lookup (updateSearch searchedState "status" "") "status").map
      (fun f => f.originalItems) =
      some (some [itemOpen, itemClosed, itemPending]) := by
  have h := (C7_originalItems_immutable searchedState "status" searchedFacet
    [itemOpen, itemClosed, itemPending]
    (by show (keys searchedState).Nodup; decide) (by rfl) (by rfl)).2.2.2.2.2.2.2.1
    "status" ""
  rcases h with ⟨f', hf, horig⟩
  rw [hf]
  simp only [Option.map_some']
  rw [horig]

/-- C8: after `selectAllItems` every item stored for the facet is selected
and `allSelected` is true; after `deSelectAllItems` every item is deselected
and `allSelected` is false. -/
theorem C8_select_deselect_all (s : FacetState) (facet : Facet) :
    (∀ f', lookup (selectAllItems s facet) facet.id = some f' →
      (∀ i ∈ f'.items, i.selected = true) ∧ f'.allSelected = true) ∧
    (∀ f', lookup (deSelectAllItems s facet) facet.id = some f' →
      (∀ i ∈ f'.items, i.selected = false) ∧ f'.allSelected = false) := by
  constructor
  · intro f' h
    unfold selectAllItems at h
    rw [lookup_setKey_self] at h
    rcases Option.some_inj.1 h with rfl
    constructor
    · intro i hi
      rcases List.mem_map.1 hi with ⟨j, _, rfl⟩
      rfl
    · rfl
  · intro f' h
    unfold deSelectAllItems at h
    rw [lookup_setKey_self] at h
    rcases Option.some_inj.1 h with rfl
    constructor
    · intro i hi
      rcases List.mem_map.1 hi with ⟨j, _, rfl⟩
      rfl
    · rfl

/-- Witness for C8 at a concrete state. -/
theorem C8_select_deselect_all_witness :
    ((lookup (selectAllItems sampleState statusFacet) "status").getD
      stubFacet).allSelected = true := by
  exact ((C8_select_deselect_all sampleState statusFacet).1
    ((lookup (selectAllItems sampleState statusFacet) "status").getD stubFacet)
    (by rfl)).2

/-- C9: each selection operation on an existing facet rewrites only that
facet's `items` and `allSelected`; its identifying fields, `open`, `search`,
`originalItems` and `filteredItems` are unchanged, and every other key still
maps to its previous facet. -/
theorem C9_selection_frame (s : FacetState) (facet : Facet) (item : FacetItem)
    (g : Facet) (hg : lookup s facet.id = some g) :
    (∃ f', lookup (toggleSelected s facet item) facet.id = some f' ∧
      f'.id = g.id ∧ f'.title = g.title ∧ f'.accessor = g.accessor ∧
      f'.«open» = g.«open» ∧ f'.search = g.search ∧
      f'.originalItems = g.originalItems ∧ f'.filteredItems = g.filteredItems) ∧
    (∀ k2, k2 ≠ facet.id → lookup (toggleSelected s facet item) k2 = lookup s k2) ∧
    (∀ s2, selectOnly s facet item = some s2 →
      (∃ f', lookup s2 facet.id = some f' ∧
        f'.id = g.id ∧ f'.title = g.title ∧ f'.accessor = g.accessor ∧
        f'.«open» = g.«open» ∧ f'.search = g.search ∧
        f'.originalItems = g.originalItems ∧ f'.filteredItems = g.filteredItems) ∧
      (∀ k2, k2 ≠ facet.id → lookup s2 k2 = lookup s k2)) ∧
    (∃ f', lookup (selectAllItems s facet) facet.id = some f' ∧
      f'.id = g.id ∧ f'.title = g.title ∧ f'.accessor = g.accessor ∧
      f'.«open» = g.«open» ∧ f'.search = g.search ∧
      f'.originalItems = g.originalItems ∧ f'.filteredItems = g.filteredItems) ∧
    (∀ k2, k2 ≠ facet.id → lookup (selectAllItems s facet) k2 = lookup s k2) ∧
    (∃ f', lookup (deSelectAllItems s facet) facet.id = some f' ∧
      f'.id = g.id ∧ f'.title = g.title ∧ f'.accessor = g.accessor ∧
      f'.«open» = g.«open» ∧ f'.search = g.search ∧
      f'.originalItems = g.originalItems ∧ f'.filteredItems = g.filteredItems) ∧
    (∀ k2, k2 ≠ facet.id → lookup (deSelectAllItems s facet) k2 = lookup s k2) := by
  refine ⟨?_, ?_, ?_, ?_, ?_, ?_, ?_⟩
  · rw [toggleSelected_eq, hg]
    exact ⟨_, lookup_setKey_self _ _ _, rfl, rfl, rfl, rfl, rfl, rfl, rfl⟩
  · intro k2 hk2
    rw [toggleSelected_eq]
    exact lookup_setKey_ne _ _ _ _ hk2
  · intro s2 hsel
    simp only [selectOnly, hg, Option.some.injEq] at hsel
    subst hsel
    constructor
    · exact ⟨_, lookup_setKey_self _ _ _, rfl, rfl, rfl, rfl, rfl, rfl, rfl⟩
    · intro k2 hk2
      exact lookup_setKey_ne _ _ _ _ hk2
  · unfold selectAllItems
    rw [hg]
    exact ⟨_, lookup_setKey_self _ _ _, rfl, rfl, rfl, rfl, rfl, rfl, rfl⟩
  · intro k2 hk2
    unfold selectAllItems
    exact lookup_setKey_ne _ _ _ _ hk2
  · unfold deSelectAllItems
    rw [hg]
    exact ⟨_, lookup_setKey_self _ _ _, rfl, rfl, rfl, rfl, rfl, rfl, rfl⟩
  · intro k2 hk2
    unfold deSelectAllItems
    exact lookup_setKey_ne _ _ _ _ hk2

/-- Witness for C9 at a concrete state: the other facet is untouched. -/
theorem C9_selection_frame_witness :
    lookup (selectAllItems sampleState statusFacet) "solo" =
      lookup sampleState "solo" := by
  have h := C9_selection_frame sampleState statusFacet itemClosed statusFacet (by rfl)
  exact h.2.2.2.2.1 "solo" (by decide)

/-- C10: `toggleSelected` derives the stored item list and the `allSelected`
comparison from the caller-supplied facet argument even when the stored items
differ from it, while `selectOnly` transforms the item list stored in the
state. -/
theorem C10_argument_vs_stored (s : FacetState) (facet : Facet) (item : FacetItem)
    (g : Facet) (hg : lookup s facet.id = some g) (hne : g.items ≠ facet.items) :
    (∃ f', lookup (toggleSelected s facet item) facet.id = some f' ∧
      f'.items = facet.items.map (fun i =>
        if i.value == item.value then { i with selected := !i.selected } else i) ∧
      f'.allSelected = (f'.items.countP (fun i => i.selected) == facet.items.length)) ∧
    (∀ s2, selectOnly s facet item = some s2 →
      ∃ f', lookup s2 facet.id = some f' ∧
        f'.items = g.items.map (fun i => { i with selected := i.value == item.value })) := by
  constructor
  · rw [toggleSelected_eq, hg]
    refine ⟨_, lookup_setKey_self _ _ _, rfl, ?_⟩
    rw [List.countP_eq_length_filter]
  · intro s2 hsel
    simp only [selectOnly, hg, Option.some.injEq] at hsel
    subst hsel
    exact ⟨_, lookup_setKey_self _ _ _, rfl⟩

/-- Witness for C10 at a state whose stored items differ from the facet
argument's items. -/
theorem C10_argument_vs_stored_witness :
    ((lookup (toggleSelected staleState statusFacet itemClosed) "status").getD
      stubFacet).items.length = 3 := by
  have h := (C10_argument_vs_stored staleState statusFacet itemClosed
    { statusFacet with items := [itemOpen] } (by rfl) (by decide)).1
  rcases h with ⟨f', hf, hitems, hall⟩
  have hf2 : lookup (toggleSelected staleState statusFacet itemClosed) "status" =
      some f' := hf
  rw [hf2]
  simp only [Option.getD_some]
  rw [hitems]
  decide

end FilterFacets
